import Mathlib

/-!
Shallow embedding of the simfaas Fission-emulation layer (`fission.go`,
`httputil.go`): the wildcard router, function-identity resolution, the
auto-creation policy, the tap (pre-warm) and run pathways, and the
custom-response dispatcher.  The external Platform and the Go standard
library functions the code calls are not part of the sources and are
modelled from the spec where needed; state is passed explicitly and
every interaction of this layer with the Platform or with the
caller-supplied factory is recorded in a trace.
-/

namespace Simfaas

/-- Go byte strings (`[]byte` and `string`) are modelled as `String`. -/
abbrev Bytes := String

/-- Go `error` values are modelled by their message (`err.Error()`). -/
abbrev GoError := String

/-- Go `time.Duration`: a count of nanoseconds (`int64`). -/
abbrev Duration := Int

/-- One pattern-to-handler binding (`route` in httputil.go).  The
regexp test `pattern.MatchString` is modelled as an arbitrary predicate
on the path; the handler is an opaque value of type `α`. -/
structure Route (α : Type) where
  pattern : String → Bool
  handler : α

/-- Router with an ordered binding list (`RegexpHandler`). -/
structure RegexpHandler (α : Type) where
  routes : List (Route α)

/-- `HandleFunc` appends a binding: `h.routes = append(h.routes, &route{pattern, handler})`. -/
def RegexpHandler.HandleFunc {α : Type} (h : RegexpHandler α) (pattern : String → Bool) (handler : α) : RegexpHandler α :=
  ⟨h.routes ++ [⟨pattern, handler⟩]⟩

/-- Model of `strings.Split(path, "?")[0]`: the prefix of the path
before the first `?` (the whole path when it contains none). -/
def stripQuery (path : String) : String :=
  ⟨path.data.takeWhile (fun c => c != '?')⟩

/-- First binding in the list whose pattern matches the path; running
this on the reversed binding list models the reverse index loop of
`ServeHTTP`. -/
def matchFirst {α : Type} : List (Route α) → String → Option (Route α)
  | [], _ => none
  | r :: rest, path => if r.pattern path then some r else matchFirst rest path

/-- `ServeHTTP`: strip the query, scan the bindings in reverse
registration order and invoke the first whose pattern matches.  The
value `some h` models invoking the selected binding's handler `h`;
`none` models the `http.NotFound` response. -/
def RegexpHandler.ServeHTTP {α : Type} (h : RegexpHandler α) (path : String) : Option α :=
  (matchFirst h.routes.reverse (stripQuery path)).map Route.handler

/-- Header marking custom-function requests (`CUSTOM_FN_HEADER`). -/
def CUSTOM_FN_HEADER : String := "X-CustomFn"

/-- Go `type CustomFn = func(b []byte) ([]byte, error)`. -/
abbrev CustomFn := Bytes → Except GoError Bytes

/-- Custom-response dispatcher (`CustomHandler`); the Go map of
handlers is modelled as an association list with unique keys. -/
structure CustomHandler where
  GetFn : String → Except GoError String
  Handlers : List (String × CustomFn)

/-- `ExecFn`: resolve a registry key via `GetFn`, look the key up among
the handlers, and run the resolved generator on the payload. -/
def CustomHandler.ExecFn (c : CustomHandler) (fnName : String) (b : Bytes) : Except GoError Bytes :=
  match c.GetFn fnName with
  | .error e => .error e
  | .ok customHandler =>
    match c.Handlers.find? (fun h => h.1 == customHandler) with
    | none => .error "Parsed handler does not exist"
    | some h => h.2 b

/-- Model of `http.Header.Get`: the first value stored for the key, or
`""` when the key is absent. -/
def headerGet (h : List (String × String)) (key : String) : String :=
  match h.find? (fun e => e.1 == key) with
  | none => ""
  | some e => e.2

/-- `useCustomFn`: the custom-function marker header has a non-empty value. -/
def useCustomFn (h : List (String × String)) : Bool :=
  headerGet h CUSTOM_FN_HEADER != ""

/-- Modelled from the spec: `ErrFunctionNotFound` lives in platform.go,
which is not under src/; the spec fixes a "function not found" message. -/
def ErrFunctionNotFound : GoError := "function not found"

/-- Modelled from the spec: a function registered with the Platform,
keyed by name and carrying the opaque configuration (`Cfg`). -/
structure PlatformFn (Cfg : Type) where
  name : String
  config : Cfg
deriving DecidableEq

/-- Modelled from the spec: the external Platform contract this layer
consumes (platform.go is not under src/): look a function up by name,
register one, deploy one, run one and obtain a report.  `respond`
abstracts whatever response payload the simulated execution produces. -/
structure Platform (Cfg : Type) where
  fns : List (PlatformFn Cfg)
  respond : PlatformFn Cfg → Option Duration → String

/-- Platform lookup: the registered function with the given name. -/
def Platform.Get {Cfg : Type} (p : Platform Cfg) (fnName : String) : Option (PlatformFn Cfg) :=
  p.fns.find? (fun fn => fn.name == fnName)

/-- Platform registration: record the function under its name. -/
def Platform.Define {Cfg : Type} (p : Platform Cfg) (fnName : String) (cfg : Cfg) : Platform Cfg :=
  { p with fns := p.fns ++ [⟨fnName, cfg⟩] }

/-- Modelled from the spec: the execution report produced by the
Platform; only the response payload field matters to this layer, which
may overwrite it. -/
structure ExecutionReport where
  Response : String
deriving DecidableEq

/-- Modelled from the spec: the Platform's synchronous run fails with
`ErrFunctionNotFound` for an unknown function and otherwise produces
the simulated report, with the optional runtime override passed through. -/
def Platform.Run {Cfg : Type} (p : Platform Cfg) (fnName : String) (runtime : Option Duration) : Except GoError ExecutionReport :=
  match p.Get fnName with
  | none => .error ErrFunctionNotFound
  | some fn => .ok ⟨p.respond fn runtime⟩

/-- Observable interactions of this layer with the external Platform
and with the caller-supplied configuration factory; the traces of these
events are what the registration/deploy/run claims quantify over. -/
inductive PEvent (Cfg : Type) where
  | get (fnName : String)
  | factory (fnName : String)
  | define (fnName : String) (cfg : Cfg)
  | deploy (fnName : String)
  | run (fnName : String) (runtime : Option Duration)
deriving DecidableEq

/-- Registration events are `define` events. -/
def PEvent.isDefine {Cfg : Type} : PEvent Cfg → Bool
  | .define _ _ => true
  | _ => false

/-- Factory-invocation events. -/
def PEvent.isFactory {Cfg : Type} : PEvent Cfg → Bool
  | .factory _ => true
  | _ => false

/-- Deploy events. -/
def PEvent.isDeploy {Cfg : Type} : PEvent Cfg → Bool
  | .deploy _ => true
  | _ => false

/-- Platform-run events. -/
def PEvent.isRun {Cfg : Type} : PEvent Cfg → Bool
  | .run _ _ => true
  | _ => false

/-- The `Fission` facade: the Platform, the configuration factory, the
auto-creation flag and the custom-response dispatcher. -/
structure Fission (Cfg : Type) where
  Platform : Simfaas.Platform Cfg
  FnFactory : String → Cfg
  CreateUndefinedFunctions : Bool
  CustomFn : CustomHandler

/-- Result of one orchestrator operation: the returned value, the
updated facade state, the synchronous trace of Platform/factory
interactions, and the interactions spawned as background (goroutine)
work, which run only after the operation has returned. -/
structure OpResult (Cfg α : Type) where
  result : α
  state : Fission Cfg
  trace : List (PEvent Cfg)
  background : List (PEvent Cfg)

/-- `getFunctionNameFromUrl`: `url.Path[strings.LastIndex(url.Path, "/")+1:]`,
the suffix of the path after its last `/` (the whole path when it
contains none). -/
def getFunctionNameFromUrl (path : String) : String :=
  ⟨(path.data.reverse.takeWhile (fun c => c != '/')).reverse⟩

/-- Host component of a parsed URL (`net/url.URL.Host`). -/
structure GoURL where
  Host : String
deriving DecidableEq

/-- Transient metadata decoded from a request body (`ObjectMeta`). -/
structure ObjectMeta where
  name : String
deriving DecidableEq

/-- Modelled from the spec: the Go standard-library calls the sources
make (`url.Parse`, `strconv.ParseFloat`, `json.Unmarshal` into
`ObjectMeta`, `json.Marshal` of a report), abstracted as caller-visible
functions; float64 values are modelled as exact rationals. -/
structure GoStd where
  urlParse : String → Except GoError GoURL
  parseFloat : String → Except GoError Rat
  unmarshalMeta : Bytes → Except GoError ObjectMeta
  marshalReport : ExecutionReport → Bytes

/-- `svc2fn`: the host component of the parsed service URL, or the raw
string itself when parsing fails. -/
def svc2fn (std : GoStd) (svc : String) : String :=
  match std.urlParse svc with
  | .error _ => svc
  | .ok svcURL => svcURL.Host

/-- `createIfUndefined`: when auto-creation is enabled and the function
is unknown, synthesize a configuration via the factory and register it. -/
def Fission.createIfUndefined {Cfg : Type} (f : Fission Cfg) (fnName : String) : Fission Cfg × List (PEvent Cfg) :=
  if f.CreateUndefinedFunctions then
    match f.Platform.Get fnName with
    | some _ => (f, [.get fnName])
    | none =>
      let fnCfg := f.FnFactory fnName
      ({ f with Platform := f.Platform.Define fnName fnCfg },
       [.get fnName, .factory fnName, .define fnName fnCfg])
  else (f, [])

/-- `GetServiceForFunction`: apply the auto-creation policy, then map
the function to its service name (the function's own name). -/
def Fission.GetServiceForFunction {Cfg : Type} (f : Fission Cfg) (fnName : String) : OpResult Cfg (Except GoError String) :=
  let f1 := (f.createIfUndefined fnName).1
  let res : Except GoError String :=
    match f1.Platform.Get fnName with
    | none => .error ErrFunctionNotFound
    | some fn => .ok fn.name
  ⟨res, f1, (f.createIfUndefined fnName).2 ++ [.get fnName], []⟩

/-- `TapService`: reject an empty URL, resolve the identity, apply the
auto-creation policy, look the function up, and spawn the deploy as
background work (the Go code runs `f.Platform.deploy(fn)` in a
goroutine whose error is discarded). -/
def Fission.TapService {Cfg : Type} (std : GoStd) (f : Fission Cfg) (svcURL : String) : OpResult Cfg (Except GoError Unit) :=
  if svcURL.length = 0 then
    ⟨.error "no url provided to tap", f, [], []⟩
  else
    let fnName := svc2fn std svcURL
    let f1 := (f.createIfUndefined fnName).1
    let rb : Except GoError Unit × List (PEvent Cfg) :=
      match f1.Platform.Get fnName with
      | none => (.error ErrFunctionNotFound, [])
      | some fn => (.ok (), [.deploy fn.name])
    ⟨rb.1, f1, (f.createIfUndefined fnName).2 ++ [.get fnName], rb.2⟩

/-- The parts of `*http.Request` the run pathway reads: the URL path,
the raw `runtime` query value (`""` when absent or empty), the headers
and the body. -/
structure RunRequest where
  path : String
  runtimeQuery : String
  header : List (String × String)
  body : Bytes
deriving DecidableEq

/-- `Fission.Run`: derive the identity from the trailing path segment,
apply the auto-creation policy, run on the Platform, then — only when
the marker header is present — overwrite the report's response with the
custom dispatcher's output, failing the whole operation if it fails. -/
def Fission.Run {Cfg : Type} (f : Fission Cfg) (r : RunRequest) (runtime : Option Duration) : OpResult Cfg (Except GoError ExecutionReport) :=
  let fnName := getFunctionNameFromUrl r.path
  let f1 := (f.createIfUndefined fnName).1
  let t := (f.createIfUndefined fnName).2 ++ [.run fnName runtime]
  let res : Except GoError ExecutionReport :=
    match f1.Platform.Run fnName runtime with
    | .error e => .error e
    | .ok report =>
      if useCustomFn r.header then
        match f1.CustomFn.ExecFn fnName r.body with
        | .error e => .error e
        | .ok out => .ok { report with Response := out }
      else .ok report
  ⟨res, f1, t, []⟩

/-- HTTP response surface: status code and body. -/
structure HttpResponse where
  status : Nat
  body : String
deriving DecidableEq

/-- Model of `http.Error(w, msg, code)`: it writes the message followed
by a newline. -/
def httpError (msg : String) (code : Nat) : HttpResponse :=
  ⟨code, msg ++ "\n"⟩

/-- `HandleTapService`: any failure of `TapService` is reported with
status 400 and the fixed body `failed to parse service to tap`;
success is a bare 200. -/
def Fission.HandleTapService {Cfg : Type} (std : GoStd) (f : Fission Cfg) (body : Bytes) : OpResult Cfg HttpResponse :=
  let t := f.TapService std body
  let resp : HttpResponse :=
    match t.result with
    | .error _ => httpError "failed to parse service to tap" 400
    | .ok _ => ⟨200, ""⟩
  ⟨resp, t.state, t.trace, t.background⟩

/-- Model of `time.Duration(seconds * float64(time.Second))`: seconds
scaled to nanoseconds and truncated toward zero, as Go's float-to-int
conversion does. -/
def goSecondsToDuration (seconds : Rat) : Duration :=
  if 0 ≤ seconds * 1000000000 then (seconds * 1000000000).floor
  else (seconds * 1000000000).ceil

/-- Tail of `HandleFunctionRun` once `seconds` is settled: convert the
seconds to a duration, invoke `Fission.Run` with the address of that
duration (the override passed down is always present, never nil),
answer 400 with the error's message on failure and 200 with the
marshalled report on success. -/
def Fission.handleFunctionRunExec {Cfg : Type} (std : GoStd) (f : Fission Cfg) (r : RunRequest) (seconds : Rat) : OpResult Cfg HttpResponse :=
  let runtime := goSecondsToDuration seconds
  let res := f.Run r (some runtime)
  let resp : HttpResponse :=
    match res.result with
    | .error e => httpError e 400
    | .ok report => ⟨200, std.marshalReport report⟩
  ⟨resp, res.state, res.trace, res.background⟩

/-- `HandleFunctionRun`: `seconds` starts at 0 and is parsed from the
`runtime` query value only when that value is non-empty, answering 400
with the parse error's message when parsing fails. -/
def Fission.HandleFunctionRun {Cfg : Type} (std : GoStd) (f : Fission Cfg) (r : RunRequest) : OpResult Cfg HttpResponse :=
  if 0 < r.runtimeQuery.length then
    match std.parseFloat r.runtimeQuery with
    | .error e => ⟨httpError e 400, f, [], []⟩
    | .ok seconds => Fission.handleFunctionRunExec std f r seconds
  else Fission.handleFunctionRunExec std f r 0

/-- `HandleGetServiceForFunction`: decode the metadata, resolve the
service, answer 400 on a parse failure, 404 on a resolution failure,
and 200 with the plain service name on success. -/
def Fission.HandleGetServiceForFunction {Cfg : Type} (std : GoStd) (f : Fission Cfg) (body : Bytes) : OpResult Cfg HttpResponse :=
  match std.unmarshalMeta body with
  | .error _ => ⟨httpError "failed to parse function metadata" 400, f, [], []⟩
  | .ok meta =>
    let res := f.GetServiceForFunction meta.name
    let resp : HttpResponse :=
      match res.result with
      | .error e => httpError e 404
      | .ok svc => ⟨200, svc⟩
    ⟨resp, res.state, res.trace, res.background⟩

/-- Concrete platform used by witnesses: one registered function. -/
def platform0 : Platform Nat :=
  ⟨[⟨"myfn", 7⟩], fun _ _ => "platform-response"⟩

/-- Concrete dispatcher with an empty registry. -/
def custom0 : CustomHandler := ⟨fun n => .ok n, []⟩

/-- Concrete facade with auto-creation disabled. -/
def fiss0 : Fission Nat := ⟨platform0, fun _ => 0, false, custom0⟩

/-- Concrete facade with auto-creation enabled and an empty platform. -/
def fiss1 : Fission Nat := ⟨⟨[], fun _ _ => "platform-response"⟩, fun _ => 3, true, custom0⟩

/-- Concrete standard-library instance: parsing a URL yields the whole
string as host, float parsing always fails, JSON decoding always fails. -/
def std0 : GoStd :=
  ⟨fun s => .ok ⟨s⟩, fun _ => .error "parse error", fun _ => .error "bad json", fun rep => rep.Response⟩

/-- Concrete dispatcher with a generator registered for `myfn`. -/
def customC : CustomHandler :=
  ⟨fun n => .ok n, [("myfn", fun b => .ok ("custom:" ++ b))]⟩

/-- Concrete facade wired to `customC`. -/
def fissC : Fission Nat := ⟨platform0, fun _ => 0, false, customC⟩

/-- Invocation request with no runtime parameter and no marker header. -/
def reqNoRuntime : RunRequest := ⟨"/fission-function/myfn", "", [], ""⟩

/-- Invocation request carrying the custom-function marker header. -/
def reqCustom : RunRequest :=
  ⟨"/fission-function/myfn", "", [("X-CustomFn", "yes")], "body"⟩

/-- Invocation request whose path ends in a slash. -/
def reqTrailing : RunRequest := ⟨"/fission-function/", "", [], ""⟩

/-- A binding with a matching pattern is selected at the head. -/
theorem matchFirst_cons_pos {α : Type} {r : Route α} {p : String} (l : List (Route α)) (h : r.pattern p = true) :
    matchFirst (r :: l) p = some r := by
  simp [matchFirst, h]

/-- A binding with a failing pattern is skipped. -/
theorem matchFirst_cons_neg {α : Type} {r : Route α} {p : String} (l : List (Route α)) (h : r.pattern p = false) :
    matchFirst (r :: l) p = matchFirst l p := by
  simp [matchFirst, h]

/-- When every binding fails to match, the scan selects nothing. -/
theorem matchFirst_none_of_all {α : Type} {l : List (Route α)} {p : String}
    (h : ∀ r ∈ l, r.pattern p = false) : matchFirst l p = none := by
  induction l with
  | nil => rfl
  | cons a t ih =>
    rw [matchFirst_cons_neg t (h a (List.mem_cons_self a t))]
    exact ih (fun r hr => h r (List.mem_cons_of_mem a hr))

/-- A scan skips over a block of bindings that all fail to match. -/
theorem matchFirst_append_of_none {α : Type} {l : List (Route α)} (l2 : List (Route α)) {p : String}
    (h : ∀ r ∈ l, r.pattern p = false) : matchFirst (l ++ l2) p = matchFirst l2 p := by
  induction l with
  | nil => rfl
  | cons a t ih =>
    rw [List.cons_append, matchFirst_cons_neg _ (h a (List.mem_cons_self a t))]
    exact ih (fun r hr => h r (List.mem_cons_of_mem a hr))

/-- A selected binding belongs to the list and its pattern matches. -/
theorem matchFirst_mem {α : Type} {l : List (Route α)} {p : String} {r : Route α}
    (h : matchFirst l p = some r) : r ∈ l ∧ r.pattern p = true := by
  induction l with
  | nil => simp [matchFirst] at h
  | cons a t ih =>
    by_cases ha : a.pattern p = true
    · rw [matchFirst_cons_pos t ha] at h
      obtain rfl : a = r := by injection h
      exact ⟨List.mem_cons_self a t, ha⟩
    · rw [matchFirst_cons_neg t (Bool.eq_false_iff.mpr ha)] at h
      obtain ⟨hm, hp⟩ := ih h
      exact ⟨List.mem_cons_of_mem a hm, hp⟩

/-- When some binding after a block matches, the scan selects a binding
inside the block or that binding itself. -/
theorem matchFirst_exists {α : Type} (l l2 : List (Route α)) (r : Route α) (p : String)
    (h : r.pattern p = true) :
    ∃ rm, matchFirst (l ++ r :: l2) p = some rm ∧ rm ∈ l ++ [r] := by
  induction l with
  | nil => exact ⟨r, matchFirst_cons_pos l2 h, by simp⟩
  | cons a t ih =>
    by_cases ha : a.pattern p = true
    · exact ⟨a, by rw [List.cons_append, matchFirst_cons_pos _ ha], by simp⟩
    · obtain ⟨rm, hm, hmem⟩ := ih
      refine ⟨rm, ?_, ?_⟩
      · rw [List.cons_append, matchFirst_cons_neg _ (Bool.eq_false_iff.mpr ha)]
        exact hm
      · simp only [List.cons_append, List.mem_cons]
        exact Or.inr (by simpa using hmem)

/-- Reversing a list containing two distinguished bindings. -/
theorem reverse_two_blocks {α : Type} (l1 l2 l3 : List (Route α)) (r1 r2 : Route α) :
    (l1 ++ r1 :: (l2 ++ r2 :: l3)).reverse =
      l3.reverse ++ r2 :: (l2.reverse ++ r1 :: l1.reverse) := by
  simp

/-- C1: in a router whose binding list contains a pattern P1 registered
before a pattern P2, both matching the request path X, dispatch selects
a binding registered no earlier than P2 (so never the P1 binding); when
moreover nothing registered after P2 matches, dispatch invokes exactly
P2's handler; and when no binding matches at all, the not-found
response (`none`) is produced. -/
theorem C1_last_registered_wins {α : Type} (l1 l2 l3 : List (Route α)) (r1 r2 : Route α) (X : String)
    (h1 : r1.pattern (stripQuery X) = true) (h2 : r2.pattern (stripQuery X) = true) :
    (∃ r, r ∈ r2 :: l3 ∧ r.pattern (stripQuery X) = true ∧
      (RegexpHandler.mk (l1 ++ r1 :: (l2 ++ r2 :: l3))).ServeHTTP X = some r.handler) ∧
    ((∀ r ∈ l3, r.pattern (stripQuery X) = false) →
      (RegexpHandler.mk (l1 ++ r1 :: (l2 ++ r2 :: l3))).ServeHTTP X = some r2.handler) ∧
    (∀ rs : List (Route α), (∀ r ∈ rs, r.pattern (stripQuery X) = false) →
      (RegexpHandler.mk rs).ServeHTTP X = none) := by
  refine ⟨?_, ?_, ?_⟩
  · obtain ⟨rm, hm, hmem⟩ :=
      matchFirst_exists l3.reverse (l2.reverse ++ r1 :: l1.reverse) r2 (stripQuery X) h2
    refine ⟨rm, ?_, (matchFirst_mem hm).2, ?_⟩
    · rcases List.mem_append.mp hmem with h | h
      · exact List.mem_cons_of_mem r2 (List.mem_reverse.mp h)
      · simp only [List.mem_singleton] at h
        subst h
        exact List.mem_cons_self rm l3
    · show (matchFirst (l1 ++ r1 :: (l2 ++ r2 :: l3)).reverse (stripQuery X)).map Route.handler = _
      rw [reverse_two_blocks, hm]
      rfl
  · intro hl3
    show (matchFirst (l1 ++ r1 :: (l2 ++ r2 :: l3)).reverse (stripQuery X)).map Route.handler = _
    rw [reverse_two_blocks,
      matchFirst_append_of_none _ (fun r hr => hl3 r (List.mem_reverse.mp hr)),
      matchFirst_cons_pos _ h2]
    rfl
  · intro rs hrs
    show (matchFirst rs.reverse (stripQuery X)).map Route.handler = _
    rw [matchFirst_none_of_all (fun r hr => hrs r (List.mem_reverse.mp hr))]
    rfl

/-- Binding used by the C1 witness: matches exactly the path "/a". -/
def routeA : Route Nat := ⟨fun s => s == "/a", 1⟩

/-- Second binding of the C1 witness: same pattern, registered later. -/
def routeB : Route Nat := ⟨fun s => s == "/a", 2⟩

/-- C1 witness: with two bindings for the same pattern, dispatching
"/a?q=1" (query stripped) invokes the later binding's handler. -/
theorem C1_witness :
    (RegexpHandler.mk ([] ++ routeA :: ([] ++ routeB :: []))).ServeHTTP "/a?q=1" = some routeB.handler :=
  (C1_last_registered_wins [] [] [] routeA routeB "/a?q=1" (by decide) (by decide)).2.1
    (by intro r hr; simp at hr)

/-- takeWhile runs through a block of satisfying elements and stops at
the first failing one. -/
theorem takeWhile_append_stop {α : Type} (p : α → Bool) (l : List α) (c : α) (t : List α)
    (hl : ∀ x ∈ l, p x = true) (hc : p c = false) :
    (l ++ c :: t).takeWhile p = l := by
  induction l with
  | nil => simp [List.takeWhile, hc]
  | cons a l ih =>
    have ha := hl a (List.mem_cons_self a l)
    simp only [List.cons_append, List.takeWhile, ha, List.append_eq]
    rw [ih (fun x hx => hl x (List.mem_cons_of_mem a hx))]

/-- takeWhile keeps a list all of whose elements satisfy the predicate. -/
theorem takeWhile_all {α : Type} (p : α → Bool) (l : List α)
    (hl : ∀ x ∈ l, p x = true) : l.takeWhile p = l := by
  induction l with
  | nil => rfl
  | cons a l ih =>
    have ha := hl a (List.mem_cons_self a l)
    simp only [List.takeWhile, ha]
    rw [ih (fun x hx => hl x (List.mem_cons_of_mem a hx))]

/-- The derived invocation identity is the path suffix after the last
slash. -/
theorem getFunctionNameFromUrl_after_slash (pre s : List Char) (hs : '/' ∉ s) :
    getFunctionNameFromUrl ⟨pre ++ '/' :: s⟩ = ⟨s⟩ := by
  unfold getFunctionNameFromUrl
  have hdata : (String.mk (pre ++ '/' :: s)).data = pre ++ '/' :: s := rfl
  rw [hdata, List.reverse_append, List.reverse_cons, List.append_assoc, List.singleton_append]
  rw [takeWhile_append_stop _ s.reverse '/' pre.reverse
    (fun x hx => by
      have hxs : x ∈ s := List.mem_reverse.mp hx
      have : x ≠ '/' := fun he => hs (he ▸ hxs)
      simpa using this)
    (by decide)]
  rw [List.reverse_reverse]

/-- A path without a slash is its own derived identity. -/
theorem getFunctionNameFromUrl_no_slash (p : String) (hp : '/' ∉ p.data) :
    getFunctionNameFromUrl p = p := by
  unfold getFunctionNameFromUrl
  rw [takeWhile_all _ p.data.reverse
    (fun x hx => by
      have hxs : x ∈ p.data := List.mem_reverse.mp hx
      have : x ≠ '/' := fun he => hp (he ▸ hxs)
      simpa using this)]
  rw [List.reverse_reverse]

/-- C6: the invocation identity is the last slash-delimited path
segment (the whole path when it has no slash), and the tap identity is
the host component of the parsed service URL, falling back to the raw
string itself when parsing fails. -/
theorem C6_identity_derivation (std : GoStd) :
    (∀ pre s : List Char, '/' ∉ s →
      getFunctionNameFromUrl ⟨pre ++ '/' :: s⟩ = ⟨s⟩) ∧
    (∀ p : String, '/' ∉ p.data → getFunctionNameFromUrl p = p) ∧
    (∀ svc u, std.urlParse svc = .ok u → svc2fn std svc = u.Host) ∧
    (∀ svc e, std.urlParse svc = .error e → svc2fn std svc = svc) := by
  refine ⟨getFunctionNameFromUrl_after_slash, getFunctionNameFromUrl_no_slash, ?_, ?_⟩
  · intro svc u hu
    unfold svc2fn
    rw [hu]
  · intro svc e he
    unfold svc2fn
    rw [he]

/-- C6 witness: concrete identity derivations for an invocation path
and for a parsed service URL. -/
theorem C6_witness :
    getFunctionNameFromUrl ⟨"/fission-function".data ++ '/' :: "myfn".data⟩ = ⟨"myfn".data⟩ ∧
    getFunctionNameFromUrl "myfn" = "myfn" ∧
    svc2fn std0 "foo.bar" = "foo.bar" := by
  refine ⟨(C6_identity_derivation std0).1 "/fission-function".data "myfn".data (by decide),
    (C6_identity_derivation std0).2.1 "myfn" (by decide),
    (C6_identity_derivation std0).2.2.1 "foo.bar" ⟨"foo.bar"⟩ rfl⟩

/-- C10: a path ending in a slash derives the empty identity, a path
without a slash is its own identity, and `Fission.Run` performs no
validation on the empty identity: its trace applies the auto-creation
policy to `""` and then invokes the Platform run with `""`. -/
theorem C10_empty_identity {Cfg : Type} (f : Fission Cfg) (r : RunRequest) (rt : Option Duration)
    (pre : List Char) (hpath : r.path = ⟨pre ++ ['/']⟩) :
    getFunctionNameFromUrl r.path = "" ∧
    (∀ q : String, '/' ∉ q.data → getFunctionNameFromUrl q = q) ∧
    (f.Run r rt).trace = (f.createIfUndefined "").2 ++ [.run "" rt] := by
  have hempty : getFunctionNameFromUrl r.path = "" := by
    rw [hpath]
    exact getFunctionNameFromUrl_after_slash pre [] (by simp)
  refine ⟨hempty, getFunctionNameFromUrl_no_slash, ?_⟩
  unfold Fission.Run
  rw [hempty]

/-- C10 witness: the request path "/fission-function/" yields the empty
identity and the run proceeds on it. -/
theorem C10_witness :
    getFunctionNameFromUrl reqTrailing.path = "" ∧
    (∀ q : String, '/' ∉ q.data → getFunctionNameFromUrl q = q) ∧
    (fiss0.Run reqTrailing none).trace = (fiss0.createIfUndefined "").2 ++ [.run "" none] :=
  C10_empty_identity fiss0 reqTrailing none "/fission-function".data (by decide)

/-- find? skips a block in which nothing satisfies the predicate. -/
theorem findAppendOfNone {α : Type} (p : α → Bool) (l l2 : List α) (h : l.find? p = none) :
    (l ++ l2).find? p = l2.find? p := by
  induction l with
  | nil => rfl
  | cons a t ih =>
    cases hp : p a with
    | true =>
      rw [List.find?_cons_of_pos _ hp] at h
      exact absurd h (by simp)
    | false =>
      rw [List.find?_cons_of_neg _ (by simp [hp])] at h
      rw [List.cons_append, List.find?_cons_of_neg _ (by simp [hp])]
      exact ih h

/-- Registering a previously unknown function makes it known, under the
name and configuration that were registered. -/
theorem Platform.Get_Define_self {Cfg : Type} (p : Platform Cfg) (n : String) (c : Cfg)
    (h : p.Get n = none) : (p.Define n c).Get n = some ⟨n, c⟩ := by
  unfold Platform.Get at h ⊢
  unfold Platform.Define
  rw [findAppendOfNone _ _ _ h]
  simp [List.find?_cons]

/-- With auto-creation enabled and the function unknown, the policy
performs lookup, factory synthesis and registration, in that order. -/
theorem createIfUndefined_creates {Cfg : Type} (f : Fission Cfg) (n : String)
    (hen : f.CreateUndefinedFunctions = true) (hunk : f.Platform.Get n = none) :
    f.createIfUndefined n =
      ({ f with Platform := f.Platform.Define n (f.FnFactory n) },
       [.get n, .factory n, .define n (f.FnFactory n)]) := by
  unfold Fission.createIfUndefined
  rw [hen, if_pos rfl, hunk]

/-- With the function already known, the policy registers nothing:
either a bare lookup (auto-creation enabled) or nothing at all. -/
theorem createIfUndefined_known {Cfg : Type} (f : Fission Cfg) (n : String)
    (hk : f.Platform.Get n ≠ none) :
    (f.createIfUndefined n).1 = f ∧
    ((f.createIfUndefined n).2 = [.get n] ∨ (f.createIfUndefined n).2 = []) := by
  unfold Fission.createIfUndefined
  cases hen : f.CreateUndefinedFunctions with
  | false => simp
  | true =>
    cases hg : f.Platform.Get n with
    | none => exact absurd hg hk
    | some fn => simp [hg]

/-- With auto-creation disabled, the policy does nothing. -/
theorem createIfUndefined_disabled {Cfg : Type} (f : Fission Cfg) (n : String)
    (hdis : f.CreateUndefinedFunctions = false) :
    f.createIfUndefined n = (f, []) := by
  unfold Fission.createIfUndefined
  rw [hdis]
  rfl

/-- The policy trace never contains deploy or run events. -/
theorem createIfUndefined_trace_kinds {Cfg : Type} (f : Fission Cfg) (n : String) :
    (f.createIfUndefined n).2.filter PEvent.isDeploy = [] ∧
    (f.createIfUndefined n).2.filter PEvent.isRun = [] := by
  unfold Fission.createIfUndefined
  cases hen : f.CreateUndefinedFunctions with
  | false => simp
  | true =>
    cases hg : f.Platform.Get n with
    | none => simp [PEvent.isDeploy, PEvent.isRun, List.filter]
    | some fn => simp [PEvent.isDeploy, PEvent.isRun, List.filter]

/-- C2: with auto-creation enabled and "f" unknown, each operation that
needs "f" (service resolution, tap, run) issues exactly one
registration, whose configuration is the factory's output on "f",
placed after the lookup and before the operation's own Platform call;
and once "f" is known to the Platform — in particular in the state any
of these operations leaves behind — the same operations issue no
factory call and no registration. -/
theorem C2_auto_create_once {Cfg : Type} (std : GoStd) (f : Fission Cfg) (name svc : String)
    (r r2 : RunRequest) (rt rt2 : Option Duration)
    (hen : f.CreateUndefinedFunctions = true)
    (hunk : f.Platform.Get name = none) :
    ((f.GetServiceForFunction name).trace =
        [.get name, .factory name, .define name (f.FnFactory name), .get name] ∧
      (f.GetServiceForFunction name).trace.filter PEvent.isDefine =
        [.define name (f.FnFactory name)] ∧
      (f.GetServiceForFunction name).result = .ok name) ∧
    (svc.length ≠ 0 → svc2fn std svc = name →
      (f.TapService std svc).trace =
        [.get name, .factory name, .define name (f.FnFactory name), .get name] ∧
      (f.TapService std svc).trace.filter PEvent.isDefine =
        [.define name (f.FnFactory name)]) ∧
    (getFunctionNameFromUrl r.path = name →
      (f.Run r rt).trace =
        [.get name, .factory name, .define name (f.FnFactory name), .run name rt] ∧
      (f.Run r rt).trace.filter PEvent.isDefine =
        [.define name (f.FnFactory name)]) ∧
    (∀ g : Fission Cfg, g.Platform.Get name ≠ none →
      (g.GetServiceForFunction name).trace.filter
          (fun e => e.isDefine || e.isFactory) = [] ∧
      (svc2fn std svc = name → (g.TapService std svc).trace.filter
          (fun e => e.isDefine || e.isFactory) = []) ∧
      (getFunctionNameFromUrl r2.path = name → (g.Run r2 rt2).trace.filter
          (fun e => e.isDefine || e.isFactory) = [])) ∧
    ((f.GetServiceForFunction name).state.Platform.Get name =
      some ⟨name, f.FnFactory name⟩) := by
  have hcr := createIfUndefined_creates f name hen hunk
  have hdef := Platform.Get_Define_self f.Platform name (f.FnFactory name) hunk
  have hknownFilter : ∀ g : Fission Cfg, g.Platform.Get name ≠ none →
      (g.createIfUndefined name).2.filter (fun e : PEvent Cfg => e.isDefine || e.isFactory) = [] := by
    intro g hg
    rcases (createIfUndefined_known g name hg).2 with h | h <;>
      simp [h, PEvent.isDefine, PEvent.isFactory, List.filter]
  refine ⟨⟨?_, ?_, ?_⟩, ?_, ?_, ?_, ?_⟩
  · simp [Fission.GetServiceForFunction, hcr]
  · simp [Fission.GetServiceForFunction, hcr, PEvent.isDefine, List.filter]
  · simp [Fission.GetServiceForFunction, hcr, hdef]
  · intro hne hsvc
    have h0 : ¬ svc.length = 0 := hne
    constructor
    · simp [Fission.TapService, h0, hsvc, hcr]
    · simp [Fission.TapService, h0, hsvc, hcr, PEvent.isDefine, List.filter]
  · intro hfn
    constructor
    · simp [Fission.Run, hfn, hcr]
    · simp [Fission.Run, hfn, hcr, PEvent.isDefine, List.filter]
  · intro g hg
    refine ⟨?_, ?_, ?_⟩
    · simp only [Fission.GetServiceForFunction]
      rw [List.filter_append, hknownFilter g hg]
      simp [PEvent.isDefine, PEvent.isFactory, List.filter]
    · intro hsvc
      by_cases h0 : svc.length = 0
      · simp [Fission.TapService, h0]
      · simp only [Fission.TapService, if_neg h0, hsvc]
        rw [List.filter_append, hknownFilter g hg]
        simp [PEvent.isDefine, PEvent.isFactory, List.filter]
    · intro hfn
      simp only [Fission.Run, hfn]
      rw [List.filter_append, hknownFilter g hg]
      simp [PEvent.isDefine, PEvent.isFactory, List.filter]
  · simp [Fission.GetServiceForFunction, hcr, hdef]

/-- C2 witness: with auto-creation enabled and "g" unknown, resolving
the service for "g" registers it once, with the factory configuration,
and the successor state knows "g" so a second resolution registers
nothing. -/
theorem C2_witness :
    (fiss1.GetServiceForFunction "g").trace =
      [.get "g", .factory "g", .define "g" 3, .get "g"] ∧
    ((fiss1.GetServiceForFunction "g").state.GetServiceForFunction "g").trace.filter
      (fun e => e.isDefine || e.isFactory) = [] := by
  have h := C2_auto_create_once std0 fiss1 "g" "g" reqNoRuntime reqNoRuntime none none rfl rfl
  refine ⟨h.1.1, ?_⟩
  exact (h.2.2.2.1 (fiss1.GetServiceForFunction "g").state (by rw [h.2.2.2.2]; simp)).1

/-- C5: with auto-creation disabled and the function unknown, service
resolution, tap (of a non-empty URL resolving to that function) and run
all fail with the function-not-found error, leave the state untouched,
and their traces contain no factory call and no registration — only the
lookups and the Platform run call that reported the failure. -/
theorem C5_disabled_not_found {Cfg : Type} (std : GoStd) (f : Fission Cfg) (name svc : String)
    (r : RunRequest) (rt : Option Duration)
    (hdis : f.CreateUndefinedFunctions = false)
    (hunk : f.Platform.Get name = none) :
    f.GetServiceForFunction name = ⟨.error ErrFunctionNotFound, f, [.get name], []⟩ ∧
    (svc.length ≠ 0 → svc2fn std svc = name →
      f.TapService std svc = ⟨.error ErrFunctionNotFound, f, [.get name], []⟩) ∧
    (getFunctionNameFromUrl r.path = name →
      f.Run r rt = ⟨.error ErrFunctionNotFound, f, [.run name rt], []⟩) := by
  have hd := createIfUndefined_disabled f name hdis
  refine ⟨?_, ?_, ?_⟩
  · simp [Fission.GetServiceForFunction, hd, hunk]
  · intro hne hsvc
    have h0 : ¬ svc.length = 0 := hne
    simp [Fission.TapService, h0, hsvc, hd, hunk]
  · intro hfn
    simp [Fission.Run, hfn, hd, Platform.Run, hunk]

/-- C5 witness: the unknown name "nofn" fails everywhere with the
function-not-found error and registers nothing. -/
theorem C5_witness :
    fiss0.GetServiceForFunction "nofn" = ⟨.error ErrFunctionNotFound, fiss0, [.get "nofn"], []⟩ ∧
    fiss0.TapService std0 "nofn" = ⟨.error ErrFunctionNotFound, fiss0, [.get "nofn"], []⟩ := by
  have h := C5_disabled_not_found std0 fiss0 "nofn" "nofn" reqNoRuntime none rfl rfl
  exact ⟨h.1, h.2.1 (by decide) rfl⟩

/-- C7: tapping the empty string fails synchronously with the input
error, changes nothing, and performs no Platform interaction at all —
no lookup, no registration, no deploy, in the foreground or in the
background. -/
theorem C7_tap_empty {Cfg : Type} (std : GoStd) (f : Fission Cfg) :
    f.TapService std "" = ⟨.error "no url provided to tap", f, [], []⟩ := by
  simp [Fission.TapService]

/-- C9: tapping a non-empty URL whose function is known after the
auto-creation policy returns success with the deploy only spawned as
background work: the synchronous trace contains no deploy, the
background holds exactly the one deploy, and the returned value is
already fixed to success independently of that deploy's outcome. -/
theorem C9_tap_async {Cfg : Type} (std : GoStd) (f : Fission Cfg) (svc : String) (fn : PlatformFn Cfg)
    (hne : svc.length ≠ 0)
    (hknown : ((f.createIfUndefined (svc2fn std svc)).1).Platform.Get (svc2fn std svc) = some fn) :
    (f.TapService std svc).result = .ok () ∧
    (f.TapService std svc).trace.filter PEvent.isDeploy = [] ∧
    (f.TapService std svc).background = [.deploy fn.name] := by
  have hkinds := createIfUndefined_trace_kinds f (svc2fn std svc)
  have h0 : ¬ svc.length = 0 := hne
  refine ⟨?_, ?_, ?_⟩
  · simp [Fission.TapService, h0, hknown]
  · simp only [Fission.TapService, if_neg h0]
    rw [List.filter_append, hkinds.1]
    simp [PEvent.isDeploy, List.filter]
  · simp [Fission.TapService, h0, hknown]

/-- C9 witness: tapping "myfn" on a platform that knows it succeeds
with the deploy spawned in the background. -/
theorem C9_witness :
    (fiss0.TapService std0 "myfn").result = .ok () ∧
    (fiss0.TapService std0 "myfn").trace.filter PEvent.isDeploy = [] ∧
    (fiss0.TapService std0 "myfn").background = [.deploy "myfn"] :=
  C9_tap_async std0 fiss0 "myfn" ⟨"myfn", 7⟩ (by decide) rfl

/-- The run pathway's trace contains exactly one Platform run call,
with the derived identity and the override it was given. -/
theorem Run_runEvents {Cfg : Type} (f : Fission Cfg) (r : RunRequest) (rt : Option Duration) :
    (f.Run r rt).trace.filter PEvent.isRun =
      [.run (getFunctionNameFromUrl r.path) rt] := by
  simp only [Fission.Run]
  rw [List.filter_append, (createIfUndefined_trace_kinds f (getFunctionNameFromUrl r.path)).2]
  simp [PEvent.isRun, List.filter]

/-- Zero seconds convert to the zero duration. -/
theorem goSecondsToDuration_zero : goSecondsToDuration 0 = 0 := by
  have h0 : (0 : Rat) * 1000000000 = 0 := zero_mul 1000000000
  simp [goSecondsToDuration, h0, Rat.floor]

/-- A non-empty string has positive length. -/
theorem length_pos_of_ne_empty (s : String) (h : s ≠ "") : 0 < s.length := by
  cases s with
  | mk data =>
    cases data with
    | nil => exact absurd rfl h
    | cons c cs => simp [String.length]

/-- C3 (amended): the handler for the invocation endpoint always passes
a present (non-nil) override to the Platform run: the zero duration
when the `runtime` query value is absent or empty, and the parsed
number of seconds converted to a duration when it is present and
parses. -/
theorem C3_runtime_override_always_present {Cfg : Type} (std : GoStd) (f : Fission Cfg) (r : RunRequest) :
    (r.runtimeQuery = "" →
      (Fission.HandleFunctionRun std f r).trace.filter PEvent.isRun =
        [.run (getFunctionNameFromUrl r.path) (some 0)]) ∧
    (∀ v, 0 < r.runtimeQuery.length → std.parseFloat r.runtimeQuery = .ok v →
      (Fission.HandleFunctionRun std f r).trace.filter PEvent.isRun =
        [.run (getFunctionNameFromUrl r.path) (some (goSecondsToDuration v))]) := by
  constructor
  · intro hq
    have heq : (Fission.HandleFunctionRun std f r).trace =
        (f.Run r (some (goSecondsToDuration 0))).trace := by
      simp only [Fission.HandleFunctionRun, hq]
      rw [if_neg (by decide)]
      rfl
    rw [heq, goSecondsToDuration_zero]
    exact Run_runEvents f r (some 0)
  · intro v hlen hv
    have heq : (Fission.HandleFunctionRun std f r).trace =
        (f.Run r (some (goSecondsToDuration v))).trace := by
      simp only [Fission.HandleFunctionRun, if_pos hlen, hv]
      rfl
    rw [heq]
    exact Run_runEvents f r (some (goSecondsToDuration v))

/-- C3 counterexample: with the `runtime` query parameter absent, the
Platform run is invoked with the explicit zero override `some 0`, and
never with the absent override `none` the claim requires. -/
theorem C3_counterexample :
    (Fission.HandleFunctionRun std0 fiss0 reqNoRuntime).trace = [.run "myfn" (some 0)] ∧
    PEvent.run "myfn" (none : Option Duration) ∉
      (Fission.HandleFunctionRun std0 fiss0 reqNoRuntime).trace := by
  have hms : (Fission.HandleFunctionRun std0 fiss0 reqNoRuntime).trace =
      (fiss0.Run reqNoRuntime (some 0)).trace := by
    show (fiss0.Run reqNoRuntime (some (goSecondsToDuration 0))).trace = _
    rw [goSecondsToDuration_zero]
  constructor
  · rw [hms]
    decide
  · rw [hms]
    decide

/-- C3 witness: the amended claim at a concrete absent-parameter request. -/
theorem C3_witness :
    (Fission.HandleFunctionRun std0 fiss0 reqNoRuntime).trace.filter PEvent.isRun =
      [.run "myfn" (some 0)] :=
  (C3_runtime_override_always_present std0 fiss0 reqNoRuntime).1 rfl

/-- C4: when the marker header is non-empty and the Platform run
succeeded, the body and function name go to the dispatcher; on
dispatcher success the returned report is the Platform's report with
its response overwritten by the dispatcher output, on dispatcher
failure the whole run fails with that error and no report, and without
the marker header the Platform's report is returned unmodified. -/
theorem C4_custom_response_override {Cfg : Type} (f : Fission Cfg) (r : RunRequest)
    (rt : Option Duration) (rep : ExecutionReport)
    (hrun : ((f.createIfUndefined (getFunctionNameFromUrl r.path)).1).Platform.Run
      (getFunctionNameFromUrl r.path) rt = .ok rep) :
    (∀ res, useCustomFn r.header = true →
      ((f.createIfUndefined (getFunctionNameFromUrl r.path)).1).CustomFn.ExecFn
        (getFunctionNameFromUrl r.path) r.body = .ok res →
      (f.Run r rt).result = .ok { rep with Response := res }) ∧
    (∀ e, useCustomFn r.header = true →
      ((f.createIfUndefined (getFunctionNameFromUrl r.path)).1).CustomFn.ExecFn
        (getFunctionNameFromUrl r.path) r.body = .error e →
      (f.Run r rt).result = .error e) ∧
    (useCustomFn r.header = false → (f.Run r rt).result = .ok rep) := by
  refine ⟨?_, ?_, ?_⟩
  · intro res hc he
    simp [Fission.Run, hrun, hc, he]
  · intro e hc he
    simp [Fission.Run, hrun, hc, he]
  · intro hc
    simp [Fission.Run, hrun, hc]

/-- C4 witness: with a registered generator and the marker header the
response is the generator's output; without the header it is the
Platform's response. -/
theorem C4_witness :
    (fissC.Run reqCustom none).result = .ok ⟨"custom:body"⟩ ∧
    (fiss0.Run reqNoRuntime none).result = .ok ⟨"platform-response"⟩ := by
  constructor
  · exact (C4_custom_response_override fissC reqCustom none ⟨"platform-response"⟩ rfl).1
      "custom:body" rfl rfl
  · exact (C4_custom_response_override fiss0 reqNoRuntime none ⟨"platform-response"⟩ rfl).2.2 rfl

/-- C8 counterexample: the empty tap URL fails with the input error
whose message is "no url provided to tap", yet the HTTP response body
is the fixed string "failed to parse service to tap" — not that error's
message; likewise a malformed metadata body produces a fixed message,
not the JSON error's own. -/
theorem C8_counterexample :
    (fiss0.TapService std0 "").result = .error "no url provided to tap" ∧
    (fiss0.HandleTapService std0 "").result = ⟨400, "failed to parse service to tap\n"⟩ ∧
    "failed to parse service to tap\n" ≠ "no url provided to tap" ∧
    "failed to parse service to tap\n" ≠ "no url provided to tap" ++ "\n" ∧
    std0.unmarshalMeta "not-json" = .error "bad json" ∧
    (fiss0.HandleGetServiceForFunction std0 "not-json").result =
      ⟨400, "failed to parse function metadata\n"⟩ ∧
    "failed to parse function metadata\n" ≠ "bad json" ++ "\n" := by
  refine ⟨rfl, by decide, by decide, by decide, rfl, by decide, by decide⟩

/-- C8 (amended): input failures are answered with status 400; the
unparsable `runtime` parameter is reported with the parse error's own
message as the body (plus the newline `http.Error` appends), while tap
failures get the fixed body "failed to parse service to tap" and
malformed metadata JSON the fixed body "failed to parse function
metadata", regardless of the underlying error's message. -/
theorem C8_input_errors {Cfg : Type} (std : GoStd) (f : Fission Cfg) :
    (∀ body e, (f.TapService std body).result = .error e →
      (f.HandleTapService std body).result =
        ⟨400, "failed to parse service to tap" ++ "\n"⟩) ∧
    (∀ r : RunRequest, ∀ e, 0 < r.runtimeQuery.length →
      std.parseFloat r.runtimeQuery = .error e →
      (Fission.HandleFunctionRun std f r).result = ⟨400, e ++ "\n"⟩) ∧
    (∀ body e, std.unmarshalMeta body = .error e →
      (f.HandleGetServiceForFunction std body).result =
        ⟨400, "failed to parse function metadata" ++ "\n"⟩) := by
  refine ⟨?_, ?_, ?_⟩
  · intro body e h
    simp [Fission.HandleTapService, h, httpError]
  · intro r e hlen h
    simp only [Fission.HandleFunctionRun, if_pos hlen, h]
    simp [httpError]
  · intro body e h
    simp [Fission.HandleGetServiceForFunction, h, httpError]

/-- C8 witness: the amended claim at the empty tap URL, an unparsable
runtime value and a malformed metadata body. -/
theorem C8_witness :
    (fiss0.HandleTapService std0 "").result =
      ⟨400, "failed to parse service to tap" ++ "\n"⟩ ∧
    (Fission.HandleFunctionRun std0 fiss0 ⟨"/fission-function/myfn", "x", [], ""⟩).result =
      ⟨400, "parse error" ++ "\n"⟩ ∧
    (fiss0.HandleGetServiceForFunction std0 "not-json").result =
      ⟨400, "failed to parse function metadata" ++ "\n"⟩ := by
  refine ⟨(C8_input_errors std0 fiss0).1 "" "no url provided to tap" rfl,
    (C8_input_errors std0 fiss0).2.1 ⟨"/fission-function/myfn", "x", [], ""⟩
      "parse error" (by decide) rfl,
    (C8_input_errors std0 fiss0).2.2 "not-json" "bad json" rfl⟩

end Simfaas
